import Mathlib

/-!
Verification of the calendar planner (`src/main.py`).

Shallow embedding conventions:
* A point in time (`datetime`) is an `Int`: minutes since an arbitrary epoch.
  A `timedelta` is likewise an `Int` number of minutes; `timedelta(hours=1)` is `60`.
* `CalendarEvent` becomes the structure `CalendarEvent` below.
* The module-level mutable list `calendar_db` becomes an explicit
  `List CalendarEvent` argument threaded through the functions.
* The extraction gateway (`extract_event`) is an external LLM call; its result
  is passed in as an `Option CalendarEvent` (`none` = validation failure),
  exactly the two outcomes the Python function can produce.
* `print` calls become a transcript: a `List String` of printed lines, returned
  alongside the value-level outcome.
-/

/-- Embeds the pydantic model `CalendarEvent` (src/main.py lines 19-22). -/
structure CalendarEvent where
  name : String
  start_time : Int
  participants : List String
deriving DecidableEq, Repr

/-- One hour, in minutes: `timedelta(hours=1)`. -/
def oneHour : Int := 60

/-- Embeds `is_slot_free` (src/main.py lines 51-62): the candidate interval is
`[new_start, new_start + duration)`; each existing event occupies
`[e.start_time, e.start_time + duration)` (the same `duration` for both); the
slot is free iff no existing event fails the test
`new_end <= existing_start or new_start >= existing_end`. -/
def is_slot_free (new_event : CalendarEvent) (duration : Int) (calendar_db : List CalendarEvent) : Bool :=
  let new_start := new_event.start_time
  let new_end := new_start + duration
  calendar_db.all fun e =>
    let existing_start := e.start_time
    let existing_end := existing_start + duration
    decide (new_end ≤ existing_start) || decide (new_start ≥ existing_end)

/-- The inline overlap test of src/main.py line 60, as the spec's §4.1
`overlaps` contract (negated "not overlap" form, as implemented). -/
def overlapCheck (new_start new_end existing_start existing_end : Int) : Bool :=
  !(decide (new_end ≤ existing_start) || decide (new_start ≥ existing_end))

/-- The candidate event built at src/main.py line 88:
`CalendarEvent(name=event.name, start_time=candidate_start, participants=event.participants)`. -/
def candidateEvent (event : CalendarEvent) (candidate_start : Int) : CalendarEvent :=
  { name := event.name, start_time := candidate_start, participants := event.participants }

/-- The loop body of `suggest_alternative`: try the offsets (in hours) in order,
return the first candidate start whose slot is free. -/
def suggestLoop (event : CalendarEvent) (duration : Int) (calendar_db : List CalendarEvent) :
    List Int → Option Int
  | [] => none
  | i :: rest =>
    let candidate_start := event.start_time + 60 * i
    if is_slot_free (candidateEvent event candidate_start) duration calendar_db then
      some candidate_start
    else
      suggestLoop event duration calendar_db rest

/-- Embeds `suggest_alternative` (src/main.py lines 83-91): `for i in range(1, 5)`
probes offsets of 1, 2, 3 and 4 hours; the first free candidate is printed
(here: returned as `some`); if none of the four is free nothing is printed
(here: `none`). -/
def suggest_alternative (event : CalendarEvent) (duration : Int) (calendar_db : List CalendarEvent) : Option Int :=
  suggestLoop event duration calendar_db [1, 2, 3, 4]

/-- The four terminal outcomes of a `schedule` call (spec §6):
`Scheduled`, `ConflictedWithSuggestion`, `ConflictedNoSuggestion`/`Unresolved`
(both the `allow_plan=False` rejection and the exhausted search), `ParseFailure`. -/
inductive Outcome where
  | scheduled (event : CalendarEvent)
  | conflictedWithSuggestion (original suggested : Int)
  | unresolved (original : Int)
  | parseFailure
deriving DecidableEq, Repr

/-- Numeric tag of an outcome's constructor. -/
def Outcome.kind : Outcome → Nat
  | .scheduled _ => 0
  | .conflictedWithSuggestion _ _ => 1
  | .unresolved _ => 2
  | .parseFailure => 3

/-- Rendering of a `datetime` in a printed message (Python's `str(event.start_time)`). -/
def timeStr (t : Int) : String := toString t

/-- Line printed at src/main.py line 74 on success. -/
def schedLine (e : CalendarEvent) : String :=
  "✅ Event added: " ++ e.name ++ " at " ++ timeStr e.start_time ++ " with " ++
    String.intercalate ", " e.participants

/-- Line printed at src/main.py line 77 when the slot is taken and `allow_plan` is true. -/
def warnLine (t : Int) : String := "⚠️ Slot already booked around " ++ timeStr t ++ "."

/-- Line printed at src/main.py line 90 for a found alternative. -/
def suggLine (s : Int) : String := "👉 Suggested alternative: " ++ timeStr s

/-- Line printed at src/main.py line 80 when the slot is taken and `allow_plan` is false. -/
def noplanLine (t : Int) : String := "Could not add, slot taken at " ++ timeStr t ++ "."

/-- Line printed at src/main.py line 69 when extraction fails. -/
def parseLine : String := "Could not parse event."

/-- Embeds `add_event` (src/main.py lines 65-80).  Input: the extraction result
(`extract_event` returns an event or `None`), the `allow_plan` flag, and the
store.  Output: the outcome, the store after the call, and the printed lines
(including the one printed inside `suggest_alternative`). -/
def add_event (extracted : Option CalendarEvent) (allow_plan : Bool)
    (calendar_db : List CalendarEvent) : Outcome × List CalendarEvent × List String :=
  match extracted with
  | none => (.parseFailure, calendar_db, [parseLine])
  | some event =>
    if is_slot_free event oneHour calendar_db then
      (.scheduled event, calendar_db ++ [event], [schedLine event])
    else if allow_plan then
      match suggest_alternative event oneHour calendar_db with
      | some s =>
        (.conflictedWithSuggestion event.start_time s, calendar_db,
          [warnLine event.start_time, suggLine s])
      | none => (.unresolved event.start_time, calendar_db, [warnLine event.start_time])
    else
      (.unresolved event.start_time, calendar_db, [noplanLine event.start_time])

/-- The key comparison `lambda x: x.start_time` of src/main.py line 99, as the
order relation the sort uses. -/
def startLE (a b : CalendarEvent) : Prop := a.start_time ≤ b.start_time

instance : DecidableRel startLE := fun a b => Int.decLe a.start_time b.start_time

instance : IsTotal CalendarEvent startLE := ⟨fun a b => Int.le_total a.start_time b.start_time⟩

instance : IsTrans CalendarEvent startLE := ⟨fun _ _ _ h h' => Int.le_trans h h'⟩

/-- The stable sort `sorted(calendar_db, key=lambda x: x.start_time)` used by
`view_events` (src/main.py line 99); Python's `sorted` is a stable sort, here
modelled by the stable `List.insertionSort`. -/
def sortByStart (calendar_db : List CalendarEvent) : List CalendarEvent :=
  List.insertionSort startLE calendar_db

/-- Embeds `view_events` (src/main.py lines 94-100) as a read operation on the
store: returns the displayed sequence (all events, sorted ascending by
`start_time`, Python's `sorted` being stable) together with the store, which
the function does not modify. -/
def view_events (calendar_db : List CalendarEvent) : List CalendarEvent × List CalendarEvent :=
  (sortByStart calendar_db, calendar_db)

/-- Two events' one-hour (or generally `d`) intervals overlap, per the check
`is_slot_free` performs. -/
def eventsOverlap (a b : CalendarEvent) (d : Int) : Prop :=
  a.start_time < b.start_time + d ∧ b.start_time < a.start_time + d

instance (a b : CalendarEvent) (d : Int) : Decidable (eventsOverlap a b d) := by
  unfold eventsOverlap; infer_instance

/-- The store invariant: no two stored events' intervals overlap. -/
def pairwiseNonOverlap (d : Int) (calendar_db : List CalendarEvent) : Prop :=
  calendar_db.Pairwise fun a b => ¬ eventsOverlap a b d

/-- A whole run: a sequence of `add_event` calls (each given by its extraction
result and `allow_plan` flag) starting from the empty store; returns the final
store. -/
def runSchedule (calls : List (Option CalendarEvent × Bool)) : List CalendarEvent :=
  calls.foldl (fun db c => (add_event c.1 c.2 db).2.1) []

/-! ### Helper lemmas -/

/-- `is_slot_free` succeeds exactly when the candidate overlaps no stored event. -/
lemma is_slot_free_spec (e : CalendarEvent) (d : Int) (db : List CalendarEvent) :
    is_slot_free e d db = true ↔ ∀ x ∈ db, ¬ eventsOverlap e x d := by
  simp only [is_slot_free, List.all_eq_true, Bool.or_eq_true, decide_eq_true_eq]
  refine forall_congr' fun x => forall_congr' fun _ => ?_
  unfold eventsOverlap
  omega

/-- The overlap relation used by the checker is symmetric. -/
lemma eventsOverlap_symm (a b : CalendarEvent) (d : Int) :
    eventsOverlap a b d ↔ eventsOverlap b a d := by
  unfold eventsOverlap; omega

/-- Full case analysis of `add_event`: the five code paths and their results. -/
lemma add_event_cases (ex : Option CalendarEvent) (ap : Bool) (db : List CalendarEvent) :
    (∃ e, ex = some e ∧ is_slot_free e oneHour db = true ∧
      add_event ex ap db = (.scheduled e, db ++ [e], [schedLine e])) ∨
    (∃ e s, ex = some e ∧ is_slot_free e oneHour db = false ∧ ap = true ∧
      suggest_alternative e oneHour db = some s ∧
      add_event ex ap db =
        (.conflictedWithSuggestion e.start_time s, db, [warnLine e.start_time, suggLine s])) ∨
    (∃ e, ex = some e ∧ is_slot_free e oneHour db = false ∧ ap = true ∧
      suggest_alternative e oneHour db = none ∧
      add_event ex ap db = (.unresolved e.start_time, db, [warnLine e.start_time])) ∨
    (∃ e, ex = some e ∧ is_slot_free e oneHour db = false ∧ ap = false ∧
      add_event ex ap db = (.unresolved e.start_time, db, [noplanLine e.start_time])) ∨
    (ex = none ∧ add_event ex ap db = (.parseFailure, db, [parseLine])) := by
  cases ex with
  | none => exact Or.inr (Or.inr (Or.inr (Or.inr ⟨rfl, rfl⟩)))
  | some e =>
    by_cases hfree : is_slot_free e oneHour db = true
    · exact Or.inl ⟨e, rfl, hfree, by simp [add_event, hfree]⟩
    · rw [Bool.not_eq_true] at hfree
      cases ap with
      | false =>
        exact Or.inr (Or.inr (Or.inr (Or.inl ⟨e, rfl, hfree, rfl, by simp [add_event, hfree]⟩)))
      | true =>
        cases hs : suggest_alternative e oneHour db with
        | some s =>
          exact Or.inr (Or.inl ⟨e, s, rfl, hfree, rfl, hs, by simp [add_event, hfree, hs]⟩)
        | none =>
          exact Or.inr (Or.inr (Or.inl ⟨e, rfl, hfree, rfl, hs, by simp [add_event, hfree, hs]⟩))

/-! ### Claim theorems -/

/-- C2: a candidate interval `[new_start, new_end)` conflicts with an existing
interval `[existing_start, existing_end)` iff `new_start < existing_end` and
`existing_start < new_end`; intervals touching at a boundary
(`new_end = existing_start`) do not overlap, and an event starting exactly at
another event's end time is accepted (scheduled). -/
theorem overlap_rule_halfopen (new_start new_end existing_start existing_end : Int)
    (x e : CalendarEvent) (ap : Bool) (hte : e.start_time = x.start_time + oneHour) :
    (overlapCheck new_start new_end existing_start existing_end = true ↔
      (new_start < existing_end ∧ existing_start < new_end)) ∧
    overlapCheck new_start existing_start existing_start existing_end = false ∧
    is_slot_free e oneHour [x] = true ∧
    add_event (some e) ap [x] = (.scheduled e, [x, e], [schedLine e]) := by
  simp only [oneHour] at hte
  have hfree : is_slot_free e oneHour [x] = true := by
    rw [is_slot_free_spec]
    intro y hy
    rw [List.mem_singleton] at hy
    subst hy
    unfold eventsOverlap oneHour
    omega
  refine ⟨?_, ?_, hfree, ?_⟩
  · simp only [overlapCheck, Bool.not_eq_true', Bool.or_eq_false_iff,
      decide_eq_false_iff_not, not_le, ge_iff_le]
    omega
  · simp [overlapCheck]
  · simp [add_event, hfree]

/-- Witness for C2 at concrete inputs. -/
theorem overlap_rule_halfopen_witness :
    ((overlapCheck 0 60 30 90 = true ↔ ((0 : Int) < 90 ∧ (30 : Int) < 60)) ∧
      overlapCheck 0 30 30 90 = false ∧
      is_slot_free ⟨"b", 60, []⟩ oneHour [⟨"a", 0, []⟩] = true ∧
      add_event (some ⟨"b", 60, []⟩) true [⟨"a", 0, []⟩] =
        (.scheduled ⟨"b", 60, []⟩, [⟨"a", 0, []⟩, ⟨"b", 60, []⟩],
          [schedLine ⟨"b", 60, []⟩])) :=
  overlap_rule_halfopen 0 60 30 90 ⟨"a", 0, []⟩ ⟨"b", 60, []⟩ true (by decide)

/-- C9: with the same duration applied to the candidate and the existing event,
the slot is taken iff the absolute difference of start times is strictly less
than the duration; the conflict test is symmetric; and start times exactly the
duration apart never conflict. -/
theorem uniform_duration_conflict (n x : CalendarEvent) (d : Int) :
    (is_slot_free n d [x] = false ↔ |n.start_time - x.start_time| < d) ∧
    is_slot_free n d [x] = is_slot_free x d [n] ∧
    (|n.start_time - x.start_time| = d → is_slot_free n d [x] = true) := by
  have spec : is_slot_free n d [x] = true ↔ ¬ eventsOverlap n x d := by
    simpa using is_slot_free_spec n d [x]
  have spec' : is_slot_free x d [n] = true ↔ ¬ eventsOverlap x n d := by
    simpa using is_slot_free_spec x d [n]
  refine ⟨?_, ?_, ?_⟩
  · rw [← Bool.not_eq_true, spec, not_not]
    unfold eventsOverlap
    rw [abs_sub_lt_iff]
    omega
  · rw [Bool.eq_iff_iff, spec, spec']
    exact not_congr (eventsOverlap_symm n x d)
  · intro h
    rw [spec]
    intro hov
    unfold eventsOverlap at hov
    have hlt : |n.start_time - x.start_time| < d :=
      abs_sub_lt_iff.mpr ⟨by omega, by omega⟩
    rw [h] at hlt
    exact absurd hlt (lt_irrefl d)

/-- Witness for C9 at concrete inputs (start times exactly one hour apart). -/
theorem uniform_duration_conflict_witness :
    is_slot_free ⟨"a", 60, []⟩ 60 [⟨"b", 0, []⟩] = true :=
  (uniform_duration_conflict ⟨"a", 60, []⟩ ⟨"b", 0, []⟩ 60).2.2 (by decide)

/-- C10: on the empty store `is_slot_free` accepts any candidate for any
duration, so a successfully extracted event is always scheduled and the store
afterwards holds exactly that event. -/
theorem empty_store_schedules (e : CalendarEvent) (d : Int) (ap : Bool) :
    is_slot_free e d [] = true ∧
    add_event (some e) ap [] = (.scheduled e, [e], [schedLine e]) := by
  have hfree : is_slot_free e oneHour [] = true := rfl
  exact ⟨rfl, by simp [add_event, hfree]⟩

/-- C4: whenever the outcome is `ParseFailure`, `Unresolved`, or
`ConflictedWithSuggestion`, the store after the call equals the store before
it — in particular a suggested alternative is never inserted. -/
theorem no_partial_commit (ex : Option CalendarEvent) (ap : Bool) (db : List CalendarEvent)
    (h : (add_event ex ap db).1 = Outcome.parseFailure ∨
      (∃ t, (add_event ex ap db).1 = Outcome.unresolved t) ∨
      (∃ t s, (add_event ex ap db).1 = Outcome.conflictedWithSuggestion t s)) :
    (add_event ex ap db).2.1 = db := by
  rcases add_event_cases ex ap db with ⟨e, _, _, heq⟩ | ⟨e, s, _, _, _, _, heq⟩ |
    ⟨e, _, _, _, _, heq⟩ | ⟨e, _, _, _, heq⟩ | ⟨_, heq⟩
  · rw [heq] at h
    simp at h
  · rw [heq]
  · rw [heq]
  · rw [heq]
  · rw [heq]

/-- Witness for C4: a parse failure on the empty store leaves it empty. -/
theorem no_partial_commit_witness : (add_event none true []).2.1 = ([] : List CalendarEvent) :=
  no_partial_commit none true [] (Or.inl rfl)

/-- C8: every `add_event` call leaves the store unchanged or appends exactly one
event at the end, and the read operation `view_events` returns the store
untouched (`is_slot_free` and `suggest_alternative` compute no new store at
all). -/
theorem append_only_evolution (ex : Option CalendarEvent) (ap : Bool) (db : List CalendarEvent) :
    ((add_event ex ap db).2.1 = db ∨ ∃ e, (add_event ex ap db).2.1 = db ++ [e]) ∧
    (view_events db).2 = db := by
  refine ⟨?_, rfl⟩
  rcases add_event_cases ex ap db with ⟨e, _, _, heq⟩ | ⟨e, s, _, _, _, _, heq⟩ |
    ⟨e, _, _, _, _, heq⟩ | ⟨e, _, _, _, heq⟩ | ⟨_, heq⟩
  · rw [heq]
    exact Or.inr ⟨e, rfl⟩
  · rw [heq]
    exact Or.inl rfl
  · rw [heq]
    exact Or.inl rfl
  · rw [heq]
    exact Or.inl rfl
  · rw [heq]
    exact Or.inl rfl

/-- C6: when `allow_plan` is false and the candidate's slot is taken, the call
returns `Unresolved` with the conflicting time at once, the store is unchanged,
and the transcript is the single rejection line (so the alternative search
contributes nothing). -/
theorem allow_plan_false_short_circuit (e : CalendarEvent) (db : List CalendarEvent)
    (h : is_slot_free e oneHour db = false) :
    add_event (some e) false db =
      (Outcome.unresolved e.start_time, db, [noplanLine e.start_time]) := by
  simp [add_event, h]

/-- Witness for C6 at a concrete conflicting input. -/
theorem allow_plan_false_short_circuit_witness :
    add_event (some ⟨"b", 30, []⟩) false [⟨"a", 0, []⟩] =
      (Outcome.unresolved 30, [⟨"a", 0, []⟩], [noplanLine 30]) :=
  allow_plan_false_short_circuit ⟨"b", 30, []⟩ [⟨"a", 0, []⟩] (by decide)

/-- One `add_event` call keeps the non-overlap invariant. -/
lemma add_event_preserves_invariant (ex : Option CalendarEvent) (ap : Bool)
    (db : List CalendarEvent) (inv : pairwiseNonOverlap oneHour db) :
    pairwiseNonOverlap oneHour (add_event ex ap db).2.1 := by
  rcases add_event_cases ex ap db with ⟨e, _, hfree, heq⟩ | ⟨e, s, _, _, _, _, heq⟩ |
    ⟨e, _, _, _, _, heq⟩ | ⟨e, _, _, _, heq⟩ | ⟨_, heq⟩
  · rw [heq]
    unfold pairwiseNonOverlap at inv ⊢
    rw [List.pairwise_append]
    refine ⟨inv, List.pairwise_singleton _ _, ?_⟩
    intro a ha b hb
    have hfree' := (is_slot_free_spec e oneHour db).mp hfree a ha
    rw [List.mem_singleton] at hb
    rw [hb, eventsOverlap_symm]
    exact hfree'
  · rw [heq]; exact inv
  · rw [heq]; exact inv
  · rw [heq]; exact inv
  · rw [heq]; exact inv

/-- C1: after any sequence of `add_event` calls starting from the empty store,
no two stored events' one-hour intervals overlap (half-open-interval rule). -/
theorem nonoverlap_invariant (calls : List (Option CalendarEvent × Bool)) :
    pairwiseNonOverlap oneHour (runSchedule calls) := by
  have h : ∀ (cs : List (Option CalendarEvent × Bool)) (db : List CalendarEvent),
      pairwiseNonOverlap oneHour db →
      pairwiseNonOverlap oneHour (cs.foldl (fun db c => (add_event c.1 c.2 db).2.1) db) := by
    intro cs
    induction cs with
    | nil => intro db hdb; exact hdb
    | cons c cs ih =>
      intro db hdb
      exact ih _ (add_event_preserves_invariant c.1 c.2 db hdb)
  exact h calls [] List.Pairwise.nil

/-- Inserting into a sorted-by-start list preserves, for each start time `t`,
the subsequence of events starting at `t` (with the new event in front when it
starts at `t`): the stability core of the sort. -/
lemma filter_orderedInsert (t : Int) (e : CalendarEvent) (l : List CalendarEvent) :
    (List.orderedInsert startLE e l).filter (fun x => decide (x.start_time = t)) =
      if e.start_time = t then
        e :: l.filter (fun x => decide (x.start_time = t))
      else l.filter (fun x => decide (x.start_time = t)) := by
  induction l with
  | nil =>
    simp only [List.orderedInsert, List.filter_cons, List.filter_nil]
    split_ifs with h h' h' <;> simp_all
  | cons x xs ih =>
    simp only [List.orderedInsert]
    by_cases hle : startLE e x
    · rw [if_pos hle]
      simp only [List.filter_cons]
      split_ifs with h h' h' <;> simp_all
    · rw [if_neg hle]
      simp only [List.filter_cons]
      unfold startLE at hle
      split_ifs with h h' h' <;> simp_all [List.filter_cons]

/-- The sort used by `view_events` preserves, for each start time, the
subsequence of events with that start time: ties keep insertion order. -/
lemma filter_sortByStart (t : Int) (db : List CalendarEvent) :
    (sortByStart db).filter (fun x => decide (x.start_time = t)) =
      db.filter (fun x => decide (x.start_time = t)) := by
  induction db with
  | nil => rfl
  | cons x xs ih =>
    show (List.orderedInsert startLE x (List.insertionSort startLE xs)).filter _ = _
    rw [filter_orderedInsert, List.filter_cons]
    unfold sortByStart at ih
    by_cases h : x.start_time = t
    · simp [h, ih]
    · simp [h, ih]

/-- C7: `view_events` does not mutate the store; reading twice without an
intervening call yields the same sequence; the produced sequence is a
permutation of the store, sorted ascending by `start_time`, and — being stable
— keeps events with equal start times in insertion order (their filtered
subsequence is unchanged). -/
theorem view_events_contract (db : List CalendarEvent) :
    (view_events db).2 = db ∧
    (view_events ((view_events db).2)).1 = (view_events db).1 ∧
    (view_events db).1.Perm db ∧
    (view_events db).1.Pairwise startLE ∧
    (∀ t : Int, (view_events db).1.filter (fun x => decide (x.start_time = t)) =
      db.filter (fun x => decide (x.start_time = t))) := by
  refine ⟨rfl, rfl, ?_, ?_, ?_⟩
  · exact List.perm_insertionSort startLE db
  · exact List.sorted_insertionSort startLE db
  · intro t
    exact filter_sortByStart t db

/-- C3: `suggest_alternative` probes exactly the candidate starts
`+1h, +2h, +3h, +4h` in order; when it reports `some s`, `s` is the earliest
of those offsets whose one-hour candidate slot is free, every earlier offset
was occupied, `s` is at most `+4h` from the original request, and the candidate
checked is the event with the same name and participants, differing only in
`start_time`; when it reports `none`, all four candidate offsets are occupied. -/
theorem suggest_alternative_contract (e : CalendarEvent) (d : Int) (db : List CalendarEvent) :
    (∀ s, suggest_alternative e d db = some s →
      ∃ i : Int, 1 ≤ i ∧ i ≤ 4 ∧ s = e.start_time + 60 * i ∧
        is_slot_free (candidateEvent e s) d db = true ∧
        (∀ j : Int, 1 ≤ j → j < i →
          is_slot_free (candidateEvent e (e.start_time + 60 * j)) d db = false) ∧
        s ≤ e.start_time + 240 ∧
        (candidateEvent e s).name = e.name ∧
        (candidateEvent e s).participants = e.participants) ∧
    (suggest_alternative e d db = none →
      ∀ i : Int, 1 ≤ i → i ≤ 4 →
        is_slot_free (candidateEvent e (e.start_time + 60 * i)) d db = false) := by
  unfold suggest_alternative
  simp only [suggestLoop]
  split_ifs with h1 h2 h3 h4
  · constructor
    · intro s hs
      rw [Option.some.injEq] at hs
      subst hs
      refine ⟨1, by norm_num, by norm_num, rfl, h1, ?_, by omega, rfl, rfl⟩
      intro j hj1 hj2
      omega
    · intro hn
      cases hn
  · constructor
    · intro s hs
      rw [Option.some.injEq] at hs
      subst hs
      rw [Bool.not_eq_true] at h1
      refine ⟨2, by norm_num, by norm_num, rfl, h2, ?_, by omega, rfl, rfl⟩
      intro j hj1 hj2
      have hj : j = 1 := by omega
      subst hj
      exact h1
    · intro hn
      cases hn
  · constructor
    · intro s hs
      rw [Option.some.injEq] at hs
      subst hs
      rw [Bool.not_eq_true] at h1 h2
      refine ⟨3, by norm_num, by norm_num, rfl, h3, ?_, by omega, rfl, rfl⟩
      intro j hj1 hj2
      have hj : j = 1 ∨ j = 2 := by omega
      rcases hj with hj | hj <;> subst hj
      · exact h1
      · exact h2
    · intro hn
      cases hn
  · constructor
    · intro s hs
      rw [Option.some.injEq] at hs
      subst hs
      rw [Bool.not_eq_true] at h1 h2 h3
      refine ⟨4, by norm_num, by norm_num, rfl, h4, ?_, by omega, rfl, rfl⟩
      intro j hj1 hj2
      have hj : j = 1 ∨ j = 2 ∨ j = 3 := by omega
      rcases hj with hj | hj | hj <;> subst hj
      · exact h1
      · exact h2
      · exact h3
    · intro hn
      cases hn
  · constructor
    · intro s hs
      cases hs
    · intro _ i hi1 hi4
      rw [Bool.not_eq_true] at h1 h2 h3 h4
      have hi : i = 1 ∨ i = 2 ∨ i = 3 ∨ i = 4 := by omega
      rcases hi with hi | hi | hi | hi <;> subst hi
      · exact h1
      · exact h2
      · exact h3
      · exact h4

/-- Witness for C3: with the original slot's next hour occupied, the reported
alternative is the `+2h` candidate, the earliest free one. -/
theorem suggest_alternative_contract_witness :
    ∃ i : Int, 1 ≤ i ∧ i ≤ 4 ∧
      (120 : Int) = (⟨"m", 0, ["c"]⟩ : CalendarEvent).start_time + 60 * i ∧
      is_slot_free (candidateEvent ⟨"m", 0, ["c"]⟩ 120) 60 [⟨"a", 60, []⟩] = true ∧
      (∀ j : Int, 1 ≤ j → j < i →
        is_slot_free
          (candidateEvent ⟨"m", 0, ["c"]⟩
            ((⟨"m", 0, ["c"]⟩ : CalendarEvent).start_time + 60 * j)) 60
          [⟨"a", 60, []⟩] = false) ∧
      (120 : Int) ≤ (⟨"m", 0, ["c"]⟩ : CalendarEvent).start_time + 240 ∧
      (candidateEvent ⟨"m", 0, ["c"]⟩ 120).name = (⟨"m", 0, ["c"]⟩ : CalendarEvent).name ∧
      (candidateEvent ⟨"m", 0, ["c"]⟩ 120).participants =
        (⟨"m", 0, ["c"]⟩ : CalendarEvent).participants :=
  (suggest_alternative_contract ⟨"m", 0, ["c"]⟩ 60 [⟨"a", 60, []⟩]).1 120 (by decide)

/-- The head character of an appended string is the head of its first part. -/
lemma data_head_append (p s : String) (c : Char) (h : p.data.head? = some c) :
    (p ++ s).data.head? = some c := by
  rw [String.data_append, List.head?_append, h]
  rfl

/-- Two strings whose head characters differ are different. -/
lemma ne_of_head {s₁ s₂ : String} {c₁ c₂ : Char} (h₁ : s₁.data.head? = some c₁)
    (h₂ : s₂.data.head? = some c₂) (hc : c₁ ≠ c₂) : s₁ ≠ s₂ := by
  intro h
  rw [h, h₂] at h₁
  exact hc (Option.some.inj h₁).symm

/-- The success line starts with the check-mark character. -/
lemma schedLine_head (e : CalendarEvent) : (schedLine e).data.head? = some '✅' := by
  unfold schedLine
  apply data_head_append
  apply data_head_append
  apply data_head_append
  apply data_head_append
  apply data_head_append
  rfl

/-- The conflict warning line starts with the warning-sign character. -/
lemma warnLine_head (t : Int) : (warnLine t).data.head? = some '⚠' := by
  unfold warnLine
  apply data_head_append
  apply data_head_append
  rfl

/-- The `allow_plan=False` rejection line starts with `C`. -/
lemma noplanLine_head (t : Int) : (noplanLine t).data.head? = some 'C' := by
  unfold noplanLine
  apply data_head_append
  apply data_head_append
  rfl

/-- The success line never coincides with the parse-failure line. -/
lemma schedLine_ne_parseLine (e : CalendarEvent) : schedLine e ≠ parseLine :=
  ne_of_head (schedLine_head e) (show parseLine.data.head? = some 'C' from rfl) (by decide)

/-- The success line never coincides with a conflict warning line. -/
lemma schedLine_ne_warnLine (e : CalendarEvent) (t : Int) : schedLine e ≠ warnLine t :=
  ne_of_head (schedLine_head e) (warnLine_head t) (by decide)

/-- The success line never coincides with an `allow_plan=False` rejection line. -/
lemma schedLine_ne_noplanLine (e : CalendarEvent) (t : Int) : schedLine e ≠ noplanLine t :=
  ne_of_head (schedLine_head e) (noplanLine_head t) (by decide)

/-- The conflict warning line never coincides with the parse-failure line. -/
lemma warnLine_ne_parseLine (t : Int) : warnLine t ≠ parseLine :=
  ne_of_head (warnLine_head t) (show parseLine.data.head? = some 'C' from rfl) (by decide)

/-- The `allow_plan=False` rejection line never coincides with the
parse-failure line (it is strictly longer). -/
lemma noplanLine_ne_parseLine (t : Int) : noplanLine t ≠ parseLine := by
  intro h
  have hlen := congrArg String.length h
  rw [noplanLine, String.length_append, String.length_append] at hlen
  have h1 : ("Could not add, slot taken at " : String).length = 29 := rfl
  have h2 : ("." : String).length = 1 := rfl
  have h3 : parseLine.length = 22 := rfl
  rw [h1, h2, h3] at hlen
  omega

/-- Singleton transcripts with different lines are different. -/
lemma singleton_ne {a b : String} (h : a ≠ b) : [a] ≠ [b] := by
  simp [h]

/-- C5: every `add_event` call yields exactly one of the four terminal
outcomes (`Scheduled`, `ConflictedWithSuggestion`, `Unresolved`,
`ParseFailure`); its transcript is never empty (never silent); and calls whose
outcomes differ in kind print different transcripts (distinct signals).  The
embedding is a total function, so the outcome is deterministic in the inputs
and no fault escapes the scheduler. -/
theorem schedule_total_and_distinct
    (ex ex' : Option CalendarEvent) (ap ap' : Bool) (db db' : List CalendarEvent)
    (hk : Outcome.kind (add_event ex ap db).1 ≠ Outcome.kind (add_event ex' ap' db').1) :
    ((∃ e, (add_event ex ap db).1 = .scheduled e) ∨
      (∃ t s, (add_event ex ap db).1 = .conflictedWithSuggestion t s) ∨
      (∃ t, (add_event ex ap db).1 = .unresolved t) ∨
      (add_event ex ap db).1 = .parseFailure) ∧
    (add_event ex ap db).2.2 ≠ [] ∧
    (add_event ex ap db).2.2 ≠ (add_event ex' ap' db').2.2 := by
  rcases add_event_cases ex ap db with ⟨e, _, _, heq⟩ | ⟨e, s, _, _, _, _, heq⟩ |
    ⟨e, _, _, _, _, heq⟩ | ⟨e, _, _, _, heq⟩ | ⟨_, heq⟩ <;>
  rcases add_event_cases ex' ap' db' with ⟨e2, _, _, heq2⟩ | ⟨e2, s2, _, _, _, _, heq2⟩ |
    ⟨e2, _, _, _, _, heq2⟩ | ⟨e2, _, _, _, heq2⟩ | ⟨_, heq2⟩ <;>
  rw [heq, heq2] at hk ⊢ <;>
  dsimp only [Outcome.kind] at hk <;>
  first
  | exact absurd rfl hk
  | refine ⟨?_, by simp, ?_⟩ <;>
    first
    | exact Or.inl ⟨_, rfl⟩
    | exact Or.inr (Or.inl ⟨_, _, rfl⟩)
    | exact Or.inr (Or.inr (Or.inl ⟨_, rfl⟩))
    | exact Or.inr (Or.inr (Or.inr rfl))
    | exact singleton_ne (schedLine_ne_parseLine _)
    | exact singleton_ne (schedLine_ne_warnLine _ _)
    | exact singleton_ne (schedLine_ne_noplanLine _ _)
    | exact singleton_ne (warnLine_ne_parseLine _)
    | exact singleton_ne (noplanLine_ne_parseLine _)
    | exact singleton_ne (Ne.symm (schedLine_ne_parseLine _))
    | exact singleton_ne (Ne.symm (schedLine_ne_warnLine _ _))
    | exact singleton_ne (Ne.symm (schedLine_ne_noplanLine _ _))
    | exact singleton_ne (Ne.symm (warnLine_ne_parseLine _))
    | exact singleton_ne (Ne.symm (noplanLine_ne_parseLine _))
    | simp

/-- Witness for C5: a successful call and a parse failure have outcomes of
different kind, and indeed print different transcripts. -/
theorem schedule_total_and_distinct_witness :
    ((∃ e, (add_event (some ⟨"a", 0, []⟩) true []).1 = .scheduled e) ∨
      (∃ t s, (add_event (some ⟨"a", 0, []⟩) true []).1 = .conflictedWithSuggestion t s) ∨
      (∃ t, (add_event (some ⟨"a", 0, []⟩) true []).1 = .unresolved t) ∨
      (add_event (some ⟨"a", 0, []⟩) true []).1 = .parseFailure) ∧
    (add_event (some ⟨"a", 0, []⟩) true []).2.2 ≠ [] ∧
    (add_event (some ⟨"a", 0, []⟩) true []).2.2 ≠ (add_event none true []).2.2 :=
  schedule_total_and_distinct (some ⟨"a", 0, []⟩) none true true [] [] (by decide)
